import Mathlib

/-!
Shallow embedding of the ClearPathMotorSD Arduino library
(src/ClearPathMotorSD.h, src/ClearPathMotorSD.cpp).

Modeling conventions:
* Signed C integers (`long`, `int32_t`, `int`) are modeled as unbounded `Int`.
  Signed overflow is undefined behavior in C, so the model covers exactly the
  defined executions.  `int` is taken to be at least 32 bits wide.
* Unsigned C integers wrap: `uint32_t` fields (`MovePosnQx`, `StepsSent`) are
  `Nat` values reduced modulo 2^32 at every assignment (`u32`), and the
  `uint8_t` field `_BurstX` is reduced modulo 256, exactly as the hardware does.
* Mixed signed/unsigned arithmetic follows the C usual arithmetic conversions
  for 32-bit operands: both sides are converted to `uint32_t` (`u32`), and a
  `uint32_t` value stored into a `long` is reinterpreted as `int32_t` (`toI32`).
* The Arduino `abs` and the C `labs` operations are absolute value; on a `uint32_t` argument
  `abs` is the identity, which the model reflects by keeping the `Nat` value.
* `x >> 1` on a signed value is the arithmetic shift, i.e. `Int.fdiv x 2`;
  `x << k` on a signed value is `x * 2 ^ k`; C signed division truncates
  toward zero, i.e. `Int.tdiv`.
* Hardware side effects (`digitalWrite`, `pinMode`, `delay`, `Serial` prints,
  `cli`/`sei`) have no effect on the modeled state and are dropped.  The
  `cli`/`sei` critical sections concern interrupt timing, which is outside
  this sequential model.
-/

namespace ClearPath

/-- Wrap an integer into the `uint32_t` range (C unsigned arithmetic mod 2^32). -/
def u32 (x : Int) : Nat := (x % 4294967296).toNat

/-- Reinterpret a `uint32_t` value as `int32_t` (gcc conversion semantics). -/
def toI32 (n : Nat) : Int :=
  if n % 4294967296 < 2147483648 then (n % 4294967296 : Int)
  else (n % 4294967296 : Int) - 4294967296

/-- C signed division: truncation toward zero. -/
def cdiv (a b : Int) : Int := Int.tdiv a b

/-- Arithmetic right shift by one of a signed value (`x >> 1` in gcc). -/
def asr1 (a : Int) : Int := Int.fdiv a 2

/-- State of one `ClearPathMotorSD` object: every data member of the C++
class, with the numeric conventions described in the file header. -/
structure Motor where
  PinA : Nat
  PinB : Nat
  PinE : Nat
  PinH : Nat
  Enabled : Bool
  moveStateX : Int
  AbsPosition : Int
  CommandX : Int
  _direction : Bool
  _BurstX : Nat
  VelLimitQx : Int
  AccLimitQx : Int
  StepsSent : Nat
  VelRefQx : Int
  AccelRefQx : Int
  _TX : Int
  _TX1 : Int
  _TX2 : Int
  _TX3 : Int
  _TAUX : Int
  _flag : Bool
  AccelRefQxS : Int
  MovePosnQx : Nat
  TargetPosnQx : Int
  TriangleMovePeakQx : Int
  minAbsPosition : Int
  maxAbsPosition : Int
  fractionalBits : Nat
  decelDistanceQx : Int
  decelAbsDistance : Int
deriving DecidableEq

/-- Case 3 of the `calcSteps` switch (idle state / move setup),
cpp lines 79-119. -/
def case3 (s : Motor) : Motor :=
  if s.CommandX = 0 then
    { s with MovePosnQx := 0, VelRefQx := 0, StepsSent := 0,
             _TX := 0, _TX1 := 0, _TX2 := 0, _TX3 := 0, _BurstX := 0 }
  else
    let target := s.CommandX * 2 ^ s.fractionalBits
    let peak := |asr1 target|
    let accS := if target > 0 then s.AccLimitQx else -s.AccLimitQx
    if peak ≤ s.AccLimitQx then
      { s with TargetPosnQx := target, TriangleMovePeakQx := peak,
               AccelRefQxS := accS, AccelRefQx := 0, VelRefQx := 0,
               MovePosnQx := u32 target, moveStateX := 3, CommandX := 0 }
    else
      { s with TargetPosnQx := target, TriangleMovePeakQx := peak,
               AccelRefQxS := accS, AccelRefQx := accS,
               MovePosnQx := u32 ((s.MovePosnQx : Int) + s.VelRefQx),
               VelRefQx := s.VelRefQx + accS,
               moveStateX := 1 }

/-- Case 1 of the `calcSteps` switch (phase 1, first half of move),
cpp lines 121-169. -/
def case1 (s : Motor) : Motor :=
  let t := { s with
    MovePosnQx := u32 ((s.MovePosnQx : Int) + s.VelRefQx + asr1 s.AccelRefQx),
    VelRefQx := s.VelRefQx + s.AccelRefQx }
  if t.MovePosnQx ≥ u32 t.TriangleMovePeakQx then
    if t._flag then
      let tx1 := if t._TX1 = 0 then t._TX else t._TX1
      let tx2 := if t._TX2 = 0 then t._TX else t._TX2
      { t with _TX1 := tx1, _TX2 := tx2,
               AccelRefQx := -t.AccelRefQx,
               _TX3 := tx2 * 2 - tx1,
               _TAUX := tx2 * 2,
               moveStateX := 2, _flag := true }
    else
      { t with _flag := true }
  else
    if |t.VelRefQx| ≥ t.VelLimitQx then
      if t._TX1 = 0 then
        { t with AccelRefQx := 0, _TX1 := t._TX,
                 VelRefQx := if t.VelRefQx > 0 then t.VelLimitQx else -t.VelLimitQx }
      else t
    else t

/-- Case 2 of the `calcSteps` switch (phase 2, second half of move),
cpp lines 171-197. -/
def case2 (s : Motor) : Motor :=
  let t := { s with
    MovePosnQx := u32 ((s.MovePosnQx : Int) + s.VelRefQx + asr1 s.AccelRefQx),
    VelRefQx := s.VelRefQx + s.AccelRefQx }
  if t._TX ≥ t._TX3 then
    let t := { t with AccelRefQx := -t.AccelRefQxS }
    if t._TX > t._TAUX ∨ |toI32 t.MovePosnQx| > |t.TargetPosnQx| ∨
        t.VelRefQx * t.AccelRefQx > 0 then
      { t with AccelRefQx := 0, VelRefQx := 0, MovePosnQx := u32 t.TargetPosnQx,
               moveStateX := 3, CommandX := 0 }
    else t
  else t

/-- Case 4 of the `calcSteps` switch (fast move), cpp lines 199-212.  The
comparison `TargetPosnQx - MovePosnQx > 50 << fractionalBits` is performed in
`uint32_t` after the usual arithmetic conversions, and the clamp assignment
parses as `(MovePosnQx + 50) << fractionalBits` in C. -/
def case4 (s : Motor) : Motor :=
  let target := s.CommandX * 2 ^ s.fractionalBits
  let t := { s with TargetPosnQx := target, MovePosnQx := u32 target }
  if u32 (t.TargetPosnQx - (t.MovePosnQx : Int)) > u32 (50 * 2 ^ t.fractionalBits) then
    { t with MovePosnQx := u32 (((t.MovePosnQx : Int) + 50) * 2 ^ t.fractionalBits) }
  else
    { t with MovePosnQx := u32 t.TargetPosnQx, CommandX := 0, moveStateX := 3 }

/-- Case 6 of the `calcSteps` switch (setup of the decelerate-over-distance
stop), cpp lines 214-338. -/
def case6 (s : Motor) : Motor :=
  if s._flag then
    let t := { s with _TX := 0, _TAUX := 550000 }
    let dq :=
      if t._direction then
        if t.AbsPosition + t.decelAbsDistance > t.maxAbsPosition then
          |t.maxAbsPosition - t.AbsPosition| * 2 ^ t.fractionalBits
        else t.decelAbsDistance * 2 ^ t.fractionalBits
      else
        if t.AbsPosition - t.decelAbsDistance < t.minAbsPosition then
          |t.AbsPosition - t.minAbsPosition| * 2 ^ t.fractionalBits
        else t.decelAbsDistance * 2 ^ t.fractionalBits
    let acc := cdiv (-(t.VelRefQx * t.VelRefQx)) (dq * 2)
    { t with decelDistanceQx := dq, AccelRefQx := min (-1) acc, moveStateX := 7 }
  else s

/-- Case 7 of the `calcSteps` switch (closed-loop deceleration run),
cpp lines 339-400.  `decelDistanceQx = TargetPosnQx - MovePosnQx` is computed
in `uint32_t` and stored back into a `long`. -/
def case7 (s : Motor) : Motor :=
  let t := { s with
    MovePosnQx := u32 ((s.MovePosnQx : Int) + s.VelRefQx + asr1 s.AccelRefQx),
    VelRefQx := s.VelRefQx + s.AccelRefQx }
  let t := { t with decelDistanceQx := toI32 (u32 (t.TargetPosnQx - (t.MovePosnQx : Int))) }
  if t._TX > t._TAUX ∨ |toI32 t.MovePosnQx| > |t.TargetPosnQx| ∨
      |t.decelDistanceQx| ≤ 0 ∨ t.VelRefQx * t.AccelRefQx > 0 then
    { t with AccelRefQx := 0, VelRefQx := 0, TargetPosnQx := toI32 t.MovePosnQx,
             moveStateX := 3, CommandX := 0 }
  else
    { t with AccelRefQx := min (-1) (cdiv (-(t.VelRefQx * t.VelRefQx)) (t.decelDistanceQx * 2)) }

/-- The `switch(moveStateX)` dispatch of `calcSteps`; any other value of
`moveStateX` falls through with no state change. -/
def phaseStep (s : Motor) : Motor :=
  if s.moveStateX = 3 then case3 s
  else if s.moveStateX = 1 then case1 s
  else if s.moveStateX = 2 then case2 s
  else if s.moveStateX = 4 then case4 s
  else if s.moveStateX = 6 then case6 s
  else if s.moveStateX = 7 then case7 s
  else s

/-- Burst emission at the end of `calcSteps`, cpp lines 402-412: the burst is
`(MovePosnQx - StepsSent) >> fractionalBits` computed in `uint32_t` and stored
into the `uint8_t` member `_BurstX`, `StepsSent` accumulates the emitted whole
steps back in Q format, and `AbsPosition` moves by the burst, signed by
`_direction`.  Returns the new state and the value returned by `calcSteps`. -/
def emitBurst (s : Motor) : Motor × Int :=
  let b := u32 ((s.MovePosnQx : Int) - (s.StepsSent : Int)) / 2 ^ s.fractionalBits % 256
  ({ s with _BurstX := b,
            StepsSent := u32 ((s.StepsSent : Int) + (b : Int) * 2 ^ s.fractionalBits),
            AbsPosition := if s._direction then s.AbsPosition + (b : Int)
                           else s.AbsPosition - (b : Int) },
   (b : Int))

/-- The `_TX++` at the top of `calcSteps`, cpp line 61. -/
def tickT (s : Motor) : Motor := { s with _TX := s._TX + 1 }

/-- State reached after the tick increment and the phase switch of one
`calcSteps` call, before burst emission. -/
def midState (s : Motor) : Motor := phaseStep (tickT s)

/-- One call of `ClearPathMotorSD::calcSteps` (cpp lines 59-414): increments
`_TX`, returns 0 untouched when disabled, otherwise runs the phase switch and
emits the burst. -/
def calcSteps (s : Motor) : Motor × Int :=
  if (tickT s).Enabled = false then (tickT s, 0)
  else emitBurst (midState s)

/-- `ClearPathMotorSD::move` (cpp lines 587-621): accepts a command only when
none is outstanding; latches `_direction` only when a direction pin is
attached; stores the magnitude of the distance.  Returns (new state, accepted). -/
def move (s : Motor) (dist : Int) : Motor × Bool :=
  if s.CommandX = 0 then
    if dist < 0 then
      let t := if s.PinA ≠ 0 then { s with _direction := true } else s
      ({ t with CommandX := -dist }, true)
    else
      let t := if s.PinA ≠ 0 then { s with _direction := false } else s
      ({ t with CommandX := dist }, true)
  else (s, false)

/-- `ClearPathMotorSD::moveFast` (cpp lines 626-660): like `move` but switches
the state machine straight to case 4. -/
def moveFast (s : Motor) (dist : Int) : Motor × Bool :=
  if s.CommandX = 0 then
    if dist < 0 then
      let t := if s.PinA ≠ 0 then { s with _direction := true } else s
      ({ t with moveStateX := 4, CommandX := -dist }, true)
    else
      let t := if s.PinA ≠ 0 then { s with _direction := false } else s
      ({ t with moveStateX := 4, CommandX := dist }, true)
  else (s, false)

/-- `ClearPathMotorSD::stopMove` (cpp lines 564-578). -/
def stopMove (s : Motor) : Motor :=
  { s with MovePosnQx := 0, VelRefQx := 0, StepsSent := 0,
           _TX := 0, _TX1 := 0, _TX2 := 0, _TX3 := 0, _BurstX := 0,
           moveStateX := 3, CommandX := 0 }

/-- `ClearPathMotorSD::setMaxVel` (cpp lines 665-673). -/
def setMaxVel (s : Motor) (velMax : Int) : Motor :=
  if cdiv velMax 2000 < 51 then
    { s with VelLimitQx := cdiv (velMax * 2 ^ s.fractionalBits) 2000 }
  else
    { s with VelLimitQx := 50 * 2 ^ s.fractionalBits }

/-- `ClearPathMotorSD::setMaxAccel` (cpp lines 678-684). -/
def setMaxAccel (s : Motor) (accelMax : Int) : Motor :=
  { s with AccLimitQx := cdiv (accelMax * 2 ^ s.fractionalBits) 4000000 }

/-- `ClearPathMotorSD::setPositionLimits` (cpp lines 686-692). -/
def setPositionLimits (s : Motor) (lo hi : Int) : Motor :=
  { s with minAbsPosition := lo, maxAbsPosition := hi }

/-- `ClearPathMotorSD::decelerateStopOverDistance` (cpp lines 420-456). -/
def decelerateStopOverDistance (s : Motor) (stopDist : Int) : Motor :=
  { s with decelAbsDistance := stopDist, moveStateX := 6 }

/-- `ClearPathMotorSD::commandDone` (cpp lines 714-720). -/
def commandDone (s : Motor) : Bool := s.CommandX == 0

/-- `ClearPathMotorSD::getCommandedPosition` (cpp lines 697-700). -/
def getCommandedPosition (s : Motor) : Int := s.AbsPosition

/-- `ClearPathMotorSD::getDirection` (cpp lines 705-708). -/
def getDirection (s : Motor) : Bool := s._direction

/-- `ClearPathMotorSD::enable` (cpp lines 737-744); the enable pin write is a
hardware side effect outside the model. -/
def enable (s : Motor) : Motor := { s with AbsPosition := 0, Enabled := true }

/-- `ClearPathMotorSD::disable` (cpp lines 750-757). -/
def disable (s : Motor) : Motor := { stopMove s with Enabled := false }

/-- Two-pin `ClearPathMotorSD::attach` (cpp lines 512-520). -/
def attach2 (s : Motor) (aPin bPin : Nat) : Motor :=
  { s with PinA := aPin, PinB := bPin, PinE := 0, PinH := 0 }

/-- State established by the default constructor (cpp lines 460-493).  The
members `_direction`, `decelDistanceQx` and `decelAbsDistance` are left
uninitialized by the constructor; the model picks `false` and `0` for them. -/
def ctorState : Motor :=
  { PinA := 0, PinB := 0, PinE := 0, PinH := 0, Enabled := false,
    moveStateX := 3, AbsPosition := 0, CommandX := 0, _direction := false,
    _BurstX := 0, VelLimitQx := 0, AccLimitQx := 0, StepsSent := 0,
    VelRefQx := 0, AccelRefQx := 0, _TX := 0, _TX1 := 0, _TX2 := 0,
    _TX3 := 0, _TAUX := 0, _flag := false, AccelRefQxS := 0, MovePosnQx := 0,
    TargetPosnQx := 0, TriangleMovePeakQx := 0, minAbsPosition := 0,
    maxAbsPosition := 54400, fractionalBits := 10, decelDistanceQx := 0,
    decelAbsDistance := 0 }

/-- Iterated `calcSteps`: the state after `n` ticks. -/
def ticks (s : Motor) : Nat → Motor
  | 0 => s
  | n + 1 => (calcSteps (ticks s n)).1

/-- Sum of the bursts returned by the first `n` `calcSteps` calls. -/
def burstSum (s : Motor) : Nat → Int
  | 0 => 0
  | n + 1 => burstSum s n + (calcSteps (ticks s n)).2

/-- A tick is emission-exact when the position integral after the phase switch
sits at or above the step accumulator, less than 256 whole steps ahead of it,
and within the `uint32_t` range (fractional width 10). -/
def residualOk (s : Motor) : Prop :=
  (midState s).StepsSent ≤ (midState s).MovePosnQx ∧
  (midState s).MovePosnQx < (midState s).StepsSent + 262144 ∧
  (midState s).MovePosnQx < 4294967296

instance (s : Motor) : Decidable (residualOk s) := by
  unfold residualOk; infer_instance

/-- Shared example configuration: velocity limit 100000 counts/sec and
acceleration limit 2000000 counts/sec/sec (both documented maxima), enabled. -/
def cfgBase : Motor := enable (setMaxAccel (setMaxVel ctorState 100000) 2000000)

/-- Shared example configuration with a direction pin attached and the largest
acceleration limit reachable through setMaxAccel without signed overflow. -/
def c2base : Motor := enable (setMaxAccel (attach2 ctorState 1 2) 2097151)

/-- Enabled idle state as left behind by a completed move: stale position
integral and tick counter, no pending command. -/
def c8stale : Motor :=
  { ctorState with Enabled := true, MovePosnQx := 2048, VelRefQx := 7, _TX := 5 }

/-- First accepted move of 2 counts on the documented-maximum configuration. -/
def c5first : Motor := (move cfgBase 2).1

/-- Second accepted move of 2 counts, issued after the first one completed
(5 ticks) and one idle tick ran the idle reset. -/
def c5second : Motor := (move (ticks c5first 6) 2).1

/-- Invariant maintained along the execution of one accepted command of
magnitude `d` (fractional width 10): the motor stays enabled, the command
magnitude is unchanged, the state machine stays in the normal-move cases,
the Q-format target equals the command once phases 1 or 2 are active, and
the step accumulator sits on a whole-step boundary. -/
def Jinv (d : Nat) (s : Motor) : Prop :=
  s.Enabled = true ∧ s.fractionalBits = 10 ∧ s.CommandX = (d : Int) ∧
  (s.moveStateX = 1 ∨ s.moveStateX = 2 ∨ s.moveStateX = 3 ∨ s.moveStateX = 4) ∧
  ((s.moveStateX = 1 ∨ s.moveStateX = 2) → s.TargetPosnQx = (d : Int) * 1024) ∧
  s.StepsSent % 1024 = 0


/-! Frame lemmas: which fields each phase case leaves untouched. -/

lemma case1_StepsSent (s : Motor) : (case1 s).StepsSent = s.StepsSent := by
  simp only [case1]; split_ifs <;> rfl

lemma case3_StepsSent (s : Motor) (h : s.CommandX ≠ 0) :
    (case3 s).StepsSent = s.StepsSent := by
  simp only [case3]; split_ifs <;> first | rfl | exact absurd (by assumption) h

lemma case2_StepsSent (s : Motor) : (case2 s).StepsSent = s.StepsSent := by
  simp only [case2]; split_ifs <;> rfl

lemma case4_StepsSent (s : Motor) : (case4 s).StepsSent = s.StepsSent := by
  simp only [case4]; split_ifs <;> rfl

lemma case6_StepsSent (s : Motor) : (case6 s).StepsSent = s.StepsSent := by
  simp only [case6]; split_ifs <;> rfl

lemma case7_StepsSent (s : Motor) : (case7 s).StepsSent = s.StepsSent := by
  simp only [case7]; split_ifs <;> rfl

lemma phaseStep_StepsSent (s : Motor) (h : s.CommandX ≠ 0) :
    (phaseStep s).StepsSent = s.StepsSent := by
  unfold phaseStep
  split_ifs <;> simp [case1_StepsSent, case2_StepsSent, case3_StepsSent s h,
    case4_StepsSent, case6_StepsSent, case7_StepsSent]

lemma case1_frame (s : Motor) : (case1 s).Enabled = s.Enabled ∧
    (case1 s).fractionalBits = s.fractionalBits ∧ (case1 s)._direction = s._direction ∧
    (case1 s).AbsPosition = s.AbsPosition := by
  simp only [case1]; split_ifs <;> exact ⟨rfl, rfl, rfl, rfl⟩

lemma case2_frame (s : Motor) : (case2 s).Enabled = s.Enabled ∧
    (case2 s).fractionalBits = s.fractionalBits ∧ (case2 s)._direction = s._direction ∧
    (case2 s).AbsPosition = s.AbsPosition := by
  simp only [case2]; split_ifs <;> exact ⟨rfl, rfl, rfl, rfl⟩

lemma case3_frame (s : Motor) : (case3 s).Enabled = s.Enabled ∧
    (case3 s).fractionalBits = s.fractionalBits ∧ (case3 s)._direction = s._direction ∧
    (case3 s).AbsPosition = s.AbsPosition := by
  simp only [case3]; split_ifs <;> exact ⟨rfl, rfl, rfl, rfl⟩

lemma case4_frame (s : Motor) : (case4 s).Enabled = s.Enabled ∧
    (case4 s).fractionalBits = s.fractionalBits ∧ (case4 s)._direction = s._direction ∧
    (case4 s).AbsPosition = s.AbsPosition := by
  simp only [case4]; split_ifs <;> exact ⟨rfl, rfl, rfl, rfl⟩

lemma case6_frame (s : Motor) : (case6 s).Enabled = s.Enabled ∧
    (case6 s).fractionalBits = s.fractionalBits ∧ (case6 s)._direction = s._direction ∧
    (case6 s).AbsPosition = s.AbsPosition := by
  simp only [case6]; split_ifs <;> exact ⟨rfl, rfl, rfl, rfl⟩

lemma case7_frame (s : Motor) : (case7 s).Enabled = s.Enabled ∧
    (case7 s).fractionalBits = s.fractionalBits ∧ (case7 s)._direction = s._direction ∧
    (case7 s).AbsPosition = s.AbsPosition := by
  simp only [case7]; split_ifs <;> exact ⟨rfl, rfl, rfl, rfl⟩

lemma phaseStep_frame (s : Motor) : (phaseStep s).Enabled = s.Enabled ∧
    (phaseStep s).fractionalBits = s.fractionalBits ∧
    (phaseStep s)._direction = s._direction ∧
    (phaseStep s).AbsPosition = s.AbsPosition := by
  unfold phaseStep
  split_ifs <;> first
    | exact case1_frame s | exact case2_frame s | exact case3_frame s
    | exact case4_frame s | exact case6_frame s | exact case7_frame s
    | exact ⟨rfl, rfl, rfl, rfl⟩

lemma tickT_Enabled (s : Motor) : (tickT s).Enabled = s.Enabled := rfl

lemma tickT_CommandX (s : Motor) : (tickT s).CommandX = s.CommandX := rfl

lemma tickT_moveStateX (s : Motor) : (tickT s).moveStateX = s.moveStateX := rfl

lemma tickT_StepsSent (s : Motor) : (tickT s).StepsSent = s.StepsSent := rfl

lemma tickT_TargetPosnQx (s : Motor) : (tickT s).TargetPosnQx = s.TargetPosnQx := rfl

lemma tickT_fractionalBits (s : Motor) : (tickT s).fractionalBits = s.fractionalBits := rfl

lemma calcSteps_enabled (s : Motor) (h : s.Enabled = true) :
    calcSteps s = emitBurst (midState s) := by
  unfold calcSteps
  rw [tickT_Enabled, h]
  simp

/-! Behavior of each phase case on the command, state and target fields. -/

lemma case3_run (s : Motor) (h : s.CommandX ≠ 0) :
    ((case3 s).CommandX = 0 ∧ (case3 s).moveStateX = 3 ∧
      (case3 s).MovePosnQx = u32 (s.CommandX * 2 ^ s.fractionalBits) ∧
      (case3 s).TargetPosnQx = s.CommandX * 2 ^ s.fractionalBits) ∨
    ((case3 s).CommandX = s.CommandX ∧ (case3 s).moveStateX = 1 ∧
      (case3 s).TargetPosnQx = s.CommandX * 2 ^ s.fractionalBits) := by
  simp only [case3]
  split_ifs <;> first
    | exact absurd (by assumption) h
    | exact Or.inl ⟨rfl, rfl, rfl, rfl⟩
    | exact Or.inr ⟨rfl, rfl, rfl⟩

lemma case1_run (s : Motor) :
    (case1 s).CommandX = s.CommandX ∧ (case1 s).TargetPosnQx = s.TargetPosnQx ∧
    ((case1 s).moveStateX = 2 ∨ (case1 s).moveStateX = s.moveStateX) := by
  simp only [case1]
  split_ifs <;> first
    | exact ⟨rfl, rfl, Or.inl rfl⟩ | exact ⟨rfl, rfl, Or.inr rfl⟩

lemma case2_run (s : Motor) :
    ((case2 s).CommandX = 0 ∧ (case2 s).moveStateX = 3 ∧
      (case2 s).MovePosnQx = u32 s.TargetPosnQx ∧
      (case2 s).TargetPosnQx = s.TargetPosnQx) ∨
    ((case2 s).CommandX = s.CommandX ∧ (case2 s).moveStateX = s.moveStateX ∧
      (case2 s).TargetPosnQx = s.TargetPosnQx) := by
  simp only [case2]
  split_ifs <;> first
    | exact Or.inl ⟨rfl, rfl, rfl, rfl⟩ | exact Or.inr ⟨rfl, rfl, rfl⟩

lemma case4_run (s : Motor) :
    ((case4 s).CommandX = 0 ∧ (case4 s).moveStateX = 3 ∧
      (case4 s).MovePosnQx = u32 (s.CommandX * 2 ^ s.fractionalBits) ∧
      (case4 s).TargetPosnQx = s.CommandX * 2 ^ s.fractionalBits) ∨
    ((case4 s).CommandX = s.CommandX ∧ (case4 s).moveStateX = s.moveStateX ∧
      (case4 s).TargetPosnQx = s.CommandX * 2 ^ s.fractionalBits) := by
  simp only [case4]
  split_ifs <;> first
    | exact Or.inl ⟨rfl, rfl, rfl, rfl⟩ | exact Or.inr ⟨rfl, rfl, rfl⟩

lemma case6_run (s : Motor) :
    (case6 s).CommandX = s.CommandX ∧ (case6 s).TargetPosnQx = s.TargetPosnQx ∧
    ((case6 s).moveStateX = 7 ∨ (case6 s).moveStateX = s.moveStateX) := by
  simp only [case6]
  split_ifs <;> first
    | exact ⟨rfl, rfl, Or.inl rfl⟩ | exact ⟨rfl, rfl, Or.inr rfl⟩

lemma case7_run (s : Motor) :
    ((case7 s).CommandX = 0 ∧ (case7 s).moveStateX = 3) ∨
    ((case7 s).CommandX = s.CommandX ∧ (case7 s).moveStateX = s.moveStateX ∧
      (case7 s).TargetPosnQx = s.TargetPosnQx) := by
  simp only [case7]
  split_ifs <;> first
    | exact Or.inl ⟨rfl, rfl⟩ | exact Or.inr ⟨rfl, rfl, rfl⟩

/-! Arithmetic facts about the 32-bit wrap and the burst quantizer. -/

lemma u32_lt (x : Int) : u32 x < 4294967296 := by
  unfold u32; omega

lemma u32_of_range (x : Int) (h0 : 0 ≤ x) (h1 : x < 4294967296) :
    u32 x = x.toNat := by
  unfold u32; omega

/-- When the residual between the position integral and the step accumulator
is a valid burst (nonnegative and below 256 whole steps), the emitted burst is
exactly that residual in whole steps and the accumulator advances to the
position truncated to a whole-step boundary. -/
lemma emitBurst_exact (m : Motor) (hfb : m.fractionalBits = 10)
    (h1 : m.StepsSent ≤ m.MovePosnQx) (h2 : m.MovePosnQx < m.StepsSent + 262144)
    (h3 : m.MovePosnQx < 4294967296) (h4 : m.StepsSent % 1024 = 0) :
    (emitBurst m).2 = (((m.MovePosnQx - m.StepsSent) / 1024 : Nat) : Int) ∧
    (emitBurst m).1.StepsSent = m.MovePosnQx - m.MovePosnQx % 1024 := by
  simp only [emitBurst, hfb, u32]
  norm_num
  constructor
  · omega
  · omega

lemma emitBurst_StepsSent_mod (m : Motor) (hfb : m.fractionalBits = 10)
    (h : m.StepsSent % 1024 = 0) : (emitBurst m).1.StepsSent % 1024 = 0 := by
  simp only [emitBurst, hfb, u32]
  norm_num
  omega

/-! Dispatch lemmas for the phase switch. -/

lemma phaseStep_eq1 (s : Motor) (h : s.moveStateX = 1) : phaseStep s = case1 s := by
  simp [phaseStep, h]

lemma phaseStep_eq2 (s : Motor) (h : s.moveStateX = 2) : phaseStep s = case2 s := by
  simp [phaseStep, h]

lemma phaseStep_eq3 (s : Motor) (h : s.moveStateX = 3) : phaseStep s = case3 s := by
  simp [phaseStep, h]

lemma phaseStep_eq4 (s : Motor) (h : s.moveStateX = 4) : phaseStep s = case4 s := by
  simp [phaseStep, h]

lemma Jinv_step (d : Nat) (s : Motor) (hJ : Jinv d s) (hd : 0 < d)
    (hne : (calcSteps s).1.CommandX ≠ 0) : Jinv d (calcSteps s).1 := by
  obtain ⟨hE, hfb, hcmd, hst, htgt, hss⟩ := hJ
  have hdz : (d : Int) ≠ 0 := by exact_mod_cast hd.ne'
  rw [calcSteps_enabled s hE] at hne ⊢
  have hmidC : (emitBurst (midState s)).1.CommandX = (midState s).CommandX := rfl
  have hmid0 : (midState s).CommandX ≠ 0 := by rw [← hmidC]; exact hne
  have htC : (tickT s).CommandX = (d : Int) := hcmd
  have htne : (tickT s).CommandX ≠ 0 := by rw [htC]; exact hdz
  have ht1 : (tickT s).moveStateX = s.moveStateX := rfl
  have htT : (tickT s).TargetPosnQx = s.TargetPosnQx := rfl
  have hssmid : (midState s).StepsSent = s.StepsSent := by
    unfold midState
    exact phaseStep_StepsSent _ htne
  have hfr := phaseStep_frame (tickT s)
  have hmfb : (midState s).fractionalBits = 10 := by
    unfold midState; rw [hfr.2.1]; exact hfb
  refine ⟨?_, ?_, ?_, ?_, ?_, ?_⟩
  · show (midState s).Enabled = true
    unfold midState; rw [hfr.1]; exact hE
  · show (midState s).fractionalBits = 10
    exact hmfb
  · show (midState s).CommandX = (d : Int)
    unfold midState at hmid0 ⊢
    rcases hst with h1 | h2 | h3 | h4
    · rw [phaseStep_eq1 (tickT s) (ht1.trans h1)] at hmid0 ⊢
      exact (case1_run _).1.trans htC
    · rw [phaseStep_eq2 (tickT s) (ht1.trans h2)] at hmid0 ⊢
      rcases case2_run (tickT s) with hc | hc
      · exact absurd hc.1 hmid0
      · exact hc.1.trans htC
    · rw [phaseStep_eq3 (tickT s) (ht1.trans h3)] at hmid0 ⊢
      rcases case3_run (tickT s) htne with hc | hc
      · exact absurd hc.1 hmid0
      · exact hc.1.trans htC
    · rw [phaseStep_eq4 (tickT s) (ht1.trans h4)] at hmid0 ⊢
      rcases case4_run (tickT s) with hc | hc
      · exact absurd hc.1 hmid0
      · exact hc.1.trans htC
  · show (midState s).moveStateX = 1 ∨ (midState s).moveStateX = 2 ∨
        (midState s).moveStateX = 3 ∨ (midState s).moveStateX = 4
    unfold midState at hmid0 ⊢
    rcases hst with h1 | h2 | h3 | h4
    · rw [phaseStep_eq1 (tickT s) (ht1.trans h1)] at hmid0 ⊢
      rcases (case1_run (tickT s)).2.2 with hc | hc
      · exact Or.inr (Or.inl hc)
      · exact Or.inl (hc.trans (ht1.trans h1))
    · rw [phaseStep_eq2 (tickT s) (ht1.trans h2)] at hmid0 ⊢
      rcases case2_run (tickT s) with hc | hc
      · exact absurd hc.1 hmid0
      · exact Or.inr (Or.inl (hc.2.1.trans (ht1.trans h2)))
    · rw [phaseStep_eq3 (tickT s) (ht1.trans h3)] at hmid0 ⊢
      rcases case3_run (tickT s) htne with hc | hc
      · exact absurd hc.1 hmid0
      · exact Or.inl hc.2.1
    · rw [phaseStep_eq4 (tickT s) (ht1.trans h4)] at hmid0 ⊢
      rcases case4_run (tickT s) with hc | hc
      · exact absurd hc.1 hmid0
      · exact Or.inr (Or.inr (Or.inr (hc.2.1.trans (ht1.trans h4))))
  · show ((midState s).moveStateX = 1 ∨ (midState s).moveStateX = 2) →
        (midState s).TargetPosnQx = (d : Int) * 1024
    intro hpost
    unfold midState at hmid0 hpost ⊢
    rcases hst with h1 | h2 | h3 | h4
    · rw [phaseStep_eq1 (tickT s) (ht1.trans h1)] at hmid0 hpost ⊢
      rw [(case1_run (tickT s)).2.1, htT]
      exact htgt (Or.inl h1)
    · rw [phaseStep_eq2 (tickT s) (ht1.trans h2)] at hmid0 hpost ⊢
      rcases case2_run (tickT s) with hc | hc
      · exact absurd hc.1 hmid0
      · rw [hc.2.2, htT]; exact htgt (Or.inr h2)
    · rw [phaseStep_eq3 (tickT s) (ht1.trans h3)] at hmid0 hpost ⊢
      rcases case3_run (tickT s) htne with hc | hc
      · exact absurd hc.1 hmid0
      · rw [hc.2.2, htC]
        show (d : Int) * 2 ^ (tickT s).fractionalBits = (d : Int) * 1024
        rw [tickT_fractionalBits, hfb]
        norm_num
    · rw [phaseStep_eq4 (tickT s) (ht1.trans h4)] at hmid0 hpost ⊢
      rcases case4_run (tickT s) with hc | hc
      · exact absurd hc.1 hmid0
      · rw [hc.2.1.trans (ht1.trans h4)] at hpost
        rcases hpost with hp | hp <;> omega
  · show (emitBurst (midState s)).1.StepsSent % 1024 = 0
    exact emitBurst_StepsSent_mod _ hmfb (by rw [hssmid]; exact hss)

lemma completion_snap (d : Nat) (s : Motor) (hJ : Jinv d s) (hd : 0 < d)
    (hd32 : d * 1024 < 4294967296)
    (h0 : (calcSteps s).1.CommandX = 0) :
    (midState s).MovePosnQx = d * 1024 := by
  obtain ⟨hE, hfb, hcmd, hst, htgt, hss⟩ := hJ
  have hdz : (d : Int) ≠ 0 := by exact_mod_cast hd.ne'
  rw [calcSteps_enabled s hE] at h0
  have hmidC : (emitBurst (midState s)).1.CommandX = (midState s).CommandX := rfl
  have hmid0 : (midState s).CommandX = 0 := by rw [← hmidC]; exact h0
  have htC : (tickT s).CommandX = (d : Int) := hcmd
  have htne : (tickT s).CommandX ≠ 0 := by rw [htC]; exact hdz
  have ht1 : (tickT s).moveStateX = s.moveStateX := rfl
  have htT : (tickT s).TargetPosnQx = s.TargetPosnQx := rfl
  have hu : u32 ((d : Int) * 1024) = d * 1024 := by
    rw [u32_of_range]
    · omega
    · positivity
    · exact_mod_cast hd32
  have hu2 : u32 ((d : Int) * 2 ^ (tickT s).fractionalBits) = d * 1024 := by
    rw [tickT_fractionalBits, hfb]
    norm_num
    exact hu
  unfold midState at hmid0 ⊢
  rcases hst with h1 | h2 | h3 | h4
  · rw [phaseStep_eq1 (tickT s) (ht1.trans h1)] at hmid0 ⊢
    rw [(case1_run (tickT s)).1, htC] at hmid0
    exact absurd hmid0 hdz
  · rw [phaseStep_eq2 (tickT s) (ht1.trans h2)] at hmid0 ⊢
    rcases case2_run (tickT s) with hc | hc
    · rw [hc.2.2.1, htT, htgt (Or.inr h2)]
      exact hu
    · rw [hc.1, htC] at hmid0; exact absurd hmid0 hdz
  · rw [phaseStep_eq3 (tickT s) (ht1.trans h3)] at hmid0 ⊢
    rcases case3_run (tickT s) htne with hc | hc
    · rw [hc.2.2.1, htC]
      exact hu2
    · rw [hc.1, htC] at hmid0; exact absurd hmid0 hdz
  · rw [phaseStep_eq4 (tickT s) (ht1.trans h4)] at hmid0 ⊢
    rcases case4_run (tickT s) with hc | hc
    · rw [hc.2.2.1, htC]
      exact hu2
    · rw [hc.1, htC] at hmid0; exact absurd hmid0 hdz

lemma commandDone_iff (s : Motor) : commandDone s = true ↔ s.CommandX = 0 := by
  simp [commandDone]

/-- On a residual-exact tick of a busy motor, the returned burst accounts in Q
format for exactly the advance of the step accumulator, which lands on the
position integral truncated to a whole step. -/
lemma burst_step (d : Nat) (s : Motor) (hJ : Jinv d s) (hd : 0 < d)
    (hres : residualOk s) :
    (calcSteps s).2 * 1024 = ((calcSteps s).1.StepsSent : Int) - (s.StepsSent : Int) ∧
    (calcSteps s).1.StepsSent =
      (midState s).MovePosnQx - (midState s).MovePosnQx % 1024 := by
  obtain ⟨hE, hfb, hcmd, hst, htgt, hss⟩ := hJ
  have hdz : (d : Int) ≠ 0 := by exact_mod_cast hd.ne'
  have htne : (tickT s).CommandX ≠ 0 := by
    show s.CommandX ≠ 0
    rw [hcmd]; exact hdz
  have hssmid : (midState s).StepsSent = s.StepsSent :=
    phaseStep_StepsSent _ htne
  have hmfb : (midState s).fractionalBits = 10 := by
    unfold midState; rw [(phaseStep_frame (tickT s)).2.1]; exact hfb
  obtain ⟨h1, h2, h3⟩ := hres
  have h4 : (midState s).StepsSent % 1024 = 0 := by rw [hssmid]; exact hss
  obtain ⟨hb, hs⟩ := emitBurst_exact (midState s) hmfb h1 h2 h3 h4
  rw [calcSteps_enabled s hE]
  refine ⟨?_, hs⟩
  rw [hb, hs, ← hssmid]
  omega

/-- C1 (amended): over any run of `calcSteps` from an accepted command of
magnitude `d` (enabled, accumulator cleared, normal or fast move state) to
the tick on which `commandDone` first becomes true, provided every tick of
the run is residual-exact (the position integral stays at or above the step
accumulator and within 256 whole steps of it), the bursts sum to exactly
`d`, which is `targetPositionQ >> fractionalBits`, with no cumulative
rounding error.  The residual bound is necessary: moveFast jumps of 256 or
more counts and overshooting short moves violate it and lose steps mod 256. -/
theorem C1_burstSum_eq_command (d n : Nat) (s0 : Motor)
    (hE : s0.Enabled = true) (hfb : s0.fractionalBits = 10)
    (hcmd : s0.CommandX = (d : Int)) (hd : 0 < d) (hd32 : d * 1024 < 4294967296)
    (hstate : s0.moveStateX = 3 ∨ s0.moveStateX = 4) (hss : s0.StepsSent = 0)
    (hbusy : ∀ k, k < n → commandDone (ticks s0 k) = false)
    (hdone : commandDone (ticks s0 n) = true)
    (hres : ∀ k, k < n → residualOk (ticks s0 k)) :
    burstSum s0 n = (d : Int) := by
  have hdz : (d : Int) ≠ 0 := by exact_mod_cast hd.ne'
  have hnz : 0 < n := by
    rcases Nat.eq_zero_or_pos n with h0 | h0
    · exfalso
      rw [h0, commandDone_iff] at hdone
      have hzero : s0.CommandX = 0 := hdone
      rw [hcmd] at hzero
      exact hdz hzero
    · exact h0
  have hinv : ∀ k, k < n → Jinv d (ticks s0 k) := by
    intro k
    induction k with
    | zero =>
      intro _
      show Jinv d s0
      refine ⟨hE, hfb, hcmd, ?_, ?_, by rw [hss]⟩
      · rcases hstate with h | h
        · exact Or.inr (Or.inr (Or.inl h))
        · exact Or.inr (Or.inr (Or.inr h))
      · intro hbad
        rcases hstate with h | h <;> rcases hbad with h2 | h2 <;>
          rw [h] at h2 <;> omega
    | succ k ih =>
      intro hk1
      have hk : k < n := Nat.lt_of_succ_lt hk1
      have hne : (calcSteps (ticks s0 k)).1.CommandX ≠ 0 := by
        have hb := hbusy (k + 1) hk1
        intro hcontra
        rw [show ticks s0 (k + 1) = (calcSteps (ticks s0 k)).1 from rfl,
          show commandDone (calcSteps (ticks s0 k)).1 =
            decide ((calcSteps (ticks s0 k)).1.CommandX = 0) from rfl] at hb
        simp [hcontra] at hb
      exact Jinv_step d _ (ih hk) hd hne
  have hsum : ∀ k, k ≤ n → burstSum s0 k * 1024 = ((ticks s0 k).StepsSent : Int) := by
    intro k
    induction k with
    | zero =>
      intro _
      show (0 : Int) * 1024 = ((s0.StepsSent : Nat) : Int)
      rw [hss]; norm_num
    | succ k ih =>
      intro hk1
      have hk : k < n := hk1
      obtain ⟨ht, _⟩ := burst_step d _ (hinv k hk) hd (hres k hk)
      show (burstSum s0 k + (calcSteps (ticks s0 k)).2) * 1024 =
        (((calcSteps (ticks s0 k)).1.StepsSent : Nat) : Int)
      rw [add_mul, ih (Nat.le_of_lt hk), ht]
      ring
  obtain ⟨m, hm⟩ : ∃ m, n = m + 1 := ⟨n - 1, by omega⟩
  have hmlt : m < n := by omega
  have h0 : (calcSteps (ticks s0 m)).1.CommandX = 0 := by
    have hd2 := hdone
    rw [hm, show ticks s0 (m + 1) = (calcSteps (ticks s0 m)).1 from rfl,
      commandDone_iff] at hd2
    exact hd2
  have hsnap := completion_snap d (ticks s0 m) (hinv m hmlt) hd hd32 h0
  obtain ⟨_, hs2⟩ := burst_step d _ (hinv m hmlt) hd (hres m hmlt)
  have hfinal : (ticks s0 n).StepsSent = d * 1024 := by
    rw [hm, show ticks s0 (m + 1) = (calcSteps (ticks s0 m)).1 from rfl, hs2, hsnap]
    omega
  have := hsum n (le_refl n)
  rw [hfinal] at this
  have hcast : ((d * 1024 : Nat) : Int) = (d : Int) * 1024 := by push_cast; ring
  rw [hcast] at this
  exact mul_right_cancel₀ (by norm_num) this

/-- The too-short-to-ramp branch of case 3 in closed form. -/
lemma case3_immediate (s : Motor) (hc : s.CommandX ≠ 0)
    (hcond : |asr1 (s.CommandX * 2 ^ s.fractionalBits)| ≤ s.AccLimitQx) :
    case3 s = { s with
      TargetPosnQx := s.CommandX * 2 ^ s.fractionalBits,
      TriangleMovePeakQx := |asr1 (s.CommandX * 2 ^ s.fractionalBits)|,
      AccelRefQxS := if s.CommandX * 2 ^ s.fractionalBits > 0 then s.AccLimitQx
                     else -s.AccLimitQx,
      AccelRefQx := 0, VelRefQx := 0,
      MovePosnQx := u32 (s.CommandX * 2 ^ s.fractionalBits),
      moveStateX := 3, CommandX := 0 } := by
  simp only [case3]
  split_ifs <;> first
    | rfl
    | exact absurd (by assumption) hc
    | exact absurd hcond (by assumption)

/-- Burst emission on a mid state whose accumulator is cleared and whose
position integral is a small whole number of steps. -/
lemma emitBurst_small (m : Motor) (c : Nat) (hfb : m.fractionalBits = 10)
    (hss : m.StepsSent = 0) (hmp : m.MovePosnQx = c * 1024) (hc255 : c ≤ 255) :
    (emitBurst m).2 = (c : Int) ∧
    (emitBurst m).1.StepsSent = c * 1024 ∧
    (emitBurst m).1.AbsPosition =
      (if m._direction then m.AbsPosition + (c : Int) else m.AbsPosition - (c : Int)) := by
  have hbval : u32 ((m.MovePosnQx : Int) - (m.StepsSent : Int)) /
      2 ^ m.fractionalBits % 256 = c := by
    rw [hfb, hss, hmp]
    unfold u32
    norm_num
    omega
  refine ⟨?_, ?_, ?_⟩
  · show ((u32 ((m.MovePosnQx : Int) - (m.StepsSent : Int)) /
        2 ^ m.fractionalBits % 256 : Nat) : Int) = (c : Int)
    rw [hbval]
  · show u32 ((m.StepsSent : Int) +
        ((u32 ((m.MovePosnQx : Int) - (m.StepsSent : Int)) /
          2 ^ m.fractionalBits % 256 : Nat) : Int) * 2 ^ m.fractionalBits) = c * 1024
    rw [hbval, hfb, hss]
    unfold u32
    norm_num
    omega
  · show (if m._direction then
        m.AbsPosition + ((u32 ((m.MovePosnQx : Int) - (m.StepsSent : Int)) /
          2 ^ m.fractionalBits % 256 : Nat) : Int)
      else m.AbsPosition - ((u32 ((m.MovePosnQx : Int) - (m.StepsSent : Int)) /
          2 ^ m.fractionalBits % 256 : Nat) : Int)) = _
    rw [hbval]

/-- One `calcSteps` call on an enabled, cleared, idle motor holding a command
short enough for the immediate-move branch: the whole command is emitted as a
single burst and the motor is idle again afterwards. -/
lemma immediate_tick (t : Motor) (c : Nat) (hE : t.Enabled = true)
    (hfb : t.fractionalBits = 10) (hst : t.moveStateX = 3)
    (hss : t.StepsSent = 0)
    (hc : t.CommandX = (c : Int)) (hc1 : 1 ≤ c) (hc255 : c ≤ 255)
    (hacc : (c : Int) * 512 ≤ t.AccLimitQx) :
    (calcSteps t).2 = (c : Int) ∧
    (calcSteps t).1.CommandX = 0 ∧ (calcSteps t).1.moveStateX = 3 ∧
    (calcSteps t).1.TargetPosnQx = (c : Int) * 1024 ∧
    (calcSteps t).1.MovePosnQx = c * 1024 ∧
    (calcSteps t).1.VelRefQx = 0 ∧ (calcSteps t).1.AccelRefQx = 0 ∧
    (calcSteps t).1.AbsPosition =
      (if t._direction then t.AbsPosition + (c : Int) else t.AbsPosition - (c : Int)) := by
  rw [calcSteps_enabled t hE]
  have h3 : (tickT t).moveStateX = 3 := hst
  have hcm : (tickT t).CommandX = (c : Int) := hc
  have hcz : (c : Int) ≠ 0 := by exact_mod_cast (by omega : c ≠ 0)
  have hne : (tickT t).CommandX ≠ 0 := by rw [hcm]; exact hcz
  have hfb2 : (tickT t).fractionalBits = 10 := hfb
  have hasr : asr1 ((c : Int) * 2 ^ (10 : Nat)) = (c : Int) * 512 := by
    unfold asr1
    rw [Int.fdiv_eq_ediv _ (by norm_num)]
    norm_num
    omega
  have hcond : |asr1 ((tickT t).CommandX * 2 ^ (tickT t).fractionalBits)| ≤
      (tickT t).AccLimitQx := by
    rw [hcm, hfb2, hasr]
    have hb : |(c : Int) * 512| = (c : Int) * 512 := abs_of_nonneg (by positivity)
    rw [hb]
    exact hacc
  have hmid : midState t = case3 (tickT t) := by
    unfold midState; exact phaseStep_eq3 _ h3
  rw [hmid, case3_immediate _ hne hcond]
  have hmpu : u32 ((tickT t).CommandX * 2 ^ (tickT t).fractionalBits) = c * 1024 := by
    rw [hcm, hfb2]
    have h1024 : ((2 : Int) ^ (10 : Nat)) = 1024 := by norm_num
    rw [h1024, u32_of_range ((c : Int) * 1024) (by positivity) (by omega)]
    omega
  obtain ⟨hb2, hsS, hA⟩ := emitBurst_small
    (case3 (tickT t)) c
    (by rw [case3_immediate _ hne hcond]; exact hfb2)
    (by rw [case3_immediate _ hne hcond]; exact hss)
    (by rw [case3_immediate _ hne hcond]; exact hmpu)
    hc255
  rw [case3_immediate _ hne hcond] at hb2 hsS hA
  refine ⟨hb2, rfl, rfl, ?_, hmpu, rfl, rfl, hA⟩
  show (tickT t).CommandX * 2 ^ (tickT t).fractionalBits = (c : Int) * 1024
  rw [hcm, hfb2]
  norm_num

/-! Fields of the motor state that burst emission never writes. -/

lemma emitBurst_TX1 (m : Motor) : (emitBurst m).1._TX1 = m._TX1 := rfl

lemma emitBurst_TX2 (m : Motor) : (emitBurst m).1._TX2 = m._TX2 := rfl

lemma emitBurst_TX3 (m : Motor) : (emitBurst m).1._TX3 = m._TX3 := rfl

lemma emitBurst_TAUX (m : Motor) : (emitBurst m).1._TAUX = m._TAUX := rfl

lemma emitBurst_moveStateX (m : Motor) : (emitBurst m).1.moveStateX = m.moveStateX := rfl

lemma emitBurst_direction (m : Motor) : (emitBurst m).1._direction = m._direction := rfl

/-- C2 (amended): a displacement d with 1 ≤ |d| ≤ 255 whose half-move
magnitude in Q format, |d| * 2^(fractionalBits - 1), is at most the
configured acceleration limit, accepted by move while the motor is enabled,
idle and cleared (no pending command, step accumulator empty) with a
direction pin attached, completes within the single calcSteps call that
processes it: positionQ is snapped to targetPositionQ = |d| << fractionalBits,
velocity and acceleration are zeroed, the command is cleared, the call
returns the burst |d|, and absolutePosition changes by -d in that one call
(the code subtracts bursts of positive moves and adds bursts of negative
moves). -/
theorem C2_shortMove_immediate (s : Motor) (d : Int) (hE : s.Enabled = true)
    (hfb : s.fractionalBits = 10) (hidle : s.CommandX = 0) (hst : s.moveStateX = 3)
    (hss : s.StepsSent = 0) (hPin : s.PinA ≠ 0)
    (hd1 : 1 ≤ |d|) (hd255 : |d| ≤ 255) (hacc : |d| * 512 ≤ s.AccLimitQx) :
    (move s d).2 = true ∧
    (calcSteps (move s d).1).2 = |d| ∧
    (calcSteps (move s d).1).1.CommandX = 0 ∧
    (calcSteps (move s d).1).1.moveStateX = 3 ∧
    (calcSteps (move s d).1).1.TargetPosnQx = |d| * 1024 ∧
    ((calcSteps (move s d).1).1.MovePosnQx : Int) = |d| * 1024 ∧
    (calcSteps (move s d).1).1.VelRefQx = 0 ∧
    (calcSteps (move s d).1).1.AccelRefQx = 0 ∧
    (calcSteps (move s d).1).1.AbsPosition = s.AbsPosition - d := by
  have habs : (0 : Int) ≤ |d| := abs_nonneg d
  have hcabs : ((|d|.toNat : Nat) : Int) = |d| := Int.toNat_of_nonneg habs
  by_cases hdlt : d < 0
  · have hmv : move s d = ({ s with _direction := true, CommandX := -d }, true) := by
      simp only [move]
      rw [if_pos hidle, if_pos hdlt, if_pos hPin]
    have hdabs : |d| = -d := abs_of_neg hdlt
    have h2 := immediate_tick (move s d).1 |d|.toNat
      (by rw [hmv]; exact hE) (by rw [hmv]; exact hfb) (by rw [hmv]; exact hst)
      (by rw [hmv]; exact hss)
      (by rw [hmv]; show -d = ((|d|.toNat : Nat) : Int); rw [hcabs, hdabs])
      (by omega) (by omega)
      (by rw [hmv]; show ((|d|.toNat : Nat) : Int) * 512 ≤ s.AccLimitQx
          rw [hcabs]; exact hacc)
    rw [hcabs] at h2
    obtain ⟨hb, hc0, hst2, htg, hmp2, hv, ha, habs2⟩ := h2
    refine ⟨by rw [hmv], hb, hc0, hst2, htg, by rw [hmp2]; push_cast [hcabs]; ring, hv, ha, ?_⟩
    rw [habs2, hmv]
    show (if true = true then s.AbsPosition + |d| else s.AbsPosition - |d|) =
      s.AbsPosition - d
    rw [if_pos rfl, hdabs]
    ring
  · have hmv : move s d = ({ s with _direction := false, CommandX := d }, true) := by
      simp only [move]
      rw [if_pos hidle, if_neg hdlt, if_pos hPin]
    have hdabs : |d| = d := abs_of_nonneg (by omega)
    have h2 := immediate_tick (move s d).1 |d|.toNat
      (by rw [hmv]; exact hE) (by rw [hmv]; exact hfb) (by rw [hmv]; exact hst)
      (by rw [hmv]; exact hss)
      (by rw [hmv]; show d = ((|d|.toNat : Nat) : Int); rw [hcabs, hdabs])
      (by omega) (by omega)
      (by rw [hmv]; show ((|d|.toNat : Nat) : Int) * 512 ≤ s.AccLimitQx
          rw [hcabs]; exact hacc)
    rw [hcabs] at h2
    obtain ⟨hb, hc0, hst2, htg, hmp2, hv, ha, habs2⟩ := h2
    refine ⟨by rw [hmv], hb, hc0, hst2, htg, by rw [hmp2]; push_cast [hcabs]; ring, hv, ha, ?_⟩
    rw [habs2, hmv]
    show (if false = true then s.AbsPosition + |d| else s.AbsPosition - |d|) =
      s.AbsPosition - d
    rw [if_neg (by simp), hdabs]

/-- C2 counterexample: with the acceleration limit 536 set through setMaxAccel
and a direction pin attached, move 1 is accepted from the cleared idle state,
satisfies the claim hypotheses (half move 512 ≤ 536 in Q format), completes in
one tick, but absolutePosition becomes -1, not +1 as the claim states. -/
theorem C2_counterexample :
    (move c2base 1).2 = true ∧
    (calcSteps (move c2base 1).1).1.CommandX = 0 ∧
    (calcSteps (move c2base 1).1).1.AbsPosition = -1 ∧
    ¬ (calcSteps (move c2base 1).1).1.AbsPosition = c2base.AbsPosition + 1 := by
  decide

/-- C2 witness: the amended claim applied to move (-1) on the concrete cleared
configuration; all hypotheses are discharged by computation. -/
theorem C2_shortMove_immediate_witness :
    (move c2base (-1)).2 = true ∧
    (calcSteps (move c2base (-1)).1).2 = |(-1 : Int)| ∧
    (calcSteps (move c2base (-1)).1).1.CommandX = 0 ∧
    (calcSteps (move c2base (-1)).1).1.moveStateX = 3 ∧
    (calcSteps (move c2base (-1)).1).1.TargetPosnQx = |(-1 : Int)| * 1024 ∧
    ((calcSteps (move c2base (-1)).1).1.MovePosnQx : Int) = |(-1 : Int)| * 1024 ∧
    (calcSteps (move c2base (-1)).1).1.VelRefQx = 0 ∧
    (calcSteps (move c2base (-1)).1).1.AccelRefQx = 0 ∧
    (calcSteps (move c2base (-1)).1).1.AbsPosition = c2base.AbsPosition - (-1) :=
  C2_shortMove_immediate c2base (-1) (by decide) (by decide) (by decide) (by decide)
    (by decide) (by decide) (by decide) (by decide) (by decide)

/-- C3: whenever a command is already outstanding (CommandX nonzero, so
commandDone is false), move and moveFast return false for any argument and
leave every field of the motor state unchanged. -/
theorem C3_busyRejection (s : Motor) (d e : Int) (h : s.CommandX ≠ 0) :
    move s d = (s, false) ∧ moveFast s e = (s, false) := by
  constructor
  · simp only [move]; rw [if_neg h]
  · simp only [moveFast]; rw [if_neg h]

/-- C3 witness: rejection of both calls on a concrete busy state. -/
theorem C3_busyRejection_witness :
    move { ctorState with CommandX := 42 } 5 = ({ ctorState with CommandX := 42 }, false) ∧
    moveFast { ctorState with CommandX := 42 } (-7) =
      ({ ctorState with CommandX := 42 }, false) :=
  C3_busyRejection { ctorState with CommandX := 42 } 5 (-7) (by decide)

/-- C4: on the enabled tick that moves the state machine from phase 1 to
phase 2, the freshly computed timing counters satisfy
_TX3 = 2 * _TX2 - _TX1 and _TAUX = 2 * _TX2; moreover every phase 2 tick
leaves _TX1, _TX2, _TX3, _TAUX untouched, so both equalities still hold at
move completion. -/
theorem C4_rampSymmetry (s : Motor) (hE : s.Enabled = true) :
    (s.moveStateX = 1 → (calcSteps s).1.moveStateX = 2 →
      (calcSteps s).1._TX3 = 2 * (calcSteps s).1._TX2 - (calcSteps s).1._TX1 ∧
      (calcSteps s).1._TAUX = 2 * (calcSteps s).1._TX2) ∧
    (s.moveStateX = 2 →
      (calcSteps s).1._TX1 = s._TX1 ∧ (calcSteps s).1._TX2 = s._TX2 ∧
      (calcSteps s).1._TX3 = s._TX3 ∧ (calcSteps s).1._TAUX = s._TAUX) := by
  rw [calcSteps_enabled s hE]
  constructor
  · intro h1 h2
    rw [emitBurst_moveStateX] at h2
    rw [emitBurst_TX1, emitBurst_TX2, emitBurst_TX3, emitBurst_TAUX]
    rw [show midState s = case1 (tickT s) from phaseStep_eq1 _ h1] at h2 ⊢
    have h1t : (tickT s).moveStateX = 1 := h1
    revert h2
    simp only [case1]
    split_ifs <;> intro h2 <;>
      first
        | (constructor <;> ring1)
        | exact absurd (show (tickT s).moveStateX = 2 from h2)
            (by rw [h1t]; norm_num)
  · intro h2
    rw [emitBurst_TX1, emitBurst_TX2, emitBurst_TX3, emitBurst_TAUX]
    rw [show midState s = case2 (tickT s) from phaseStep_eq2 _ h2]
    simp only [case2]
    split_ifs <;> exact ⟨rfl, rfl, rfl, rfl⟩

/-- C4 witness: the transition tick of a concrete move and a phase 2 tick of
the same move, with all hypotheses discharged by computation. -/
theorem C4_rampSymmetry_witness :
    ((calcSteps (ticks (move cfgBase 2).1 3)).1._TX3 =
        2 * (calcSteps (ticks (move cfgBase 2).1 3)).1._TX2 -
          (calcSteps (ticks (move cfgBase 2).1 3)).1._TX1 ∧
      (calcSteps (ticks (move cfgBase 2).1 3)).1._TAUX =
        2 * (calcSteps (ticks (move cfgBase 2).1 3)).1._TX2) ∧
    ((calcSteps (ticks (move cfgBase 2).1 4)).1._TX1 =
        (ticks (move cfgBase 2).1 4)._TX1 ∧
      (calcSteps (ticks (move cfgBase 2).1 4)).1._TX2 =
        (ticks (move cfgBase 2).1 4)._TX2 ∧
      (calcSteps (ticks (move cfgBase 2).1 4)).1._TX3 =
        (ticks (move cfgBase 2).1 4)._TX3 ∧
      (calcSteps (ticks (move cfgBase 2).1 4)).1._TAUX =
        (ticks (move cfgBase 2).1 4)._TAUX) :=
  ⟨(C4_rampSymmetry (ticks (move cfgBase 2).1 3) (by decide)).1 (by decide) (by decide),
   (C4_rampSymmetry (ticks (move cfgBase 2).1 4) (by decide)).2 (by decide)⟩

/-- C6 (amended): stopMove zeroes the position integral, the velocity, the
step accumulator, the burst register and the counters _TX, _TX1, _TX2, _TX3,
clears the command and returns the phase to idle, while leaving
absolutePosition, the acceleration AccelRefQx, the total-duration counter
_TAUX, the enable flag and the latch flag unchanged.  The cli/sei critical
section is an interrupt-timing concern outside this sequential model. -/
theorem C6_stopMove (s : Motor) :
    commandDone (stopMove s) = true ∧ (stopMove s).moveStateX = 3 ∧
    (stopMove s).MovePosnQx = 0 ∧ (stopMove s).VelRefQx = 0 ∧
    (stopMove s).StepsSent = 0 ∧ (stopMove s)._TX = 0 ∧ (stopMove s)._TX1 = 0 ∧
    (stopMove s)._TX2 = 0 ∧ (stopMove s)._TX3 = 0 ∧ (stopMove s)._BurstX = 0 ∧
    (stopMove s).AbsPosition = s.AbsPosition ∧
    (stopMove s).AccelRefQx = s.AccelRefQx ∧ (stopMove s)._TAUX = s._TAUX ∧
    (stopMove s).Enabled = s.Enabled ∧ (stopMove s)._flag = s._flag := by
  refine ⟨?_, rfl, rfl, rfl, rfl, rfl, rfl, rfl, rfl, rfl, rfl, rfl, rfl, rfl, rfl⟩
  simp [commandDone, stopMove]

/-- C6 counterexample: stopMove does not zero the acceleration nor the
total-duration counter, contradicting the claim that all kinematic state and
all phase-timing counters are zeroed. -/
theorem C6_counterexample :
    ¬ ((stopMove { ctorState with AccelRefQx := -512, _TAUX := 8 }).AccelRefQx = 0 ∧
       (stopMove { ctorState with AccelRefQx := -512, _TAUX := 8 })._TAUX = 0) := by
  decide

/-- C7 (amended): setMaxVel saturates, never storing a velocity limit above
52223 (for quotients of 51 and above it clamps to 50 << fractionalBits =
51200; truncation lets inputs up to 101999 through the test, reaching 52223);
setMaxAccel applies no saturation at all: it stores the pure rescale
accelMax * 2^fractionalBits / 4000000 for every input. -/
theorem C7_limitScaling :
    (∀ (s : Motor) (v : Int), s.fractionalBits = 10 →
      (setMaxVel s v).VelLimitQx ≤ 52223) ∧
    (∀ (s : Motor) (a : Int),
      (setMaxAccel s a).AccLimitQx = cdiv (a * 2 ^ s.fractionalBits) 4000000) := by
  constructor
  · intro s v hfb
    unfold setMaxVel cdiv
    rw [hfb]
    split_ifs with h
    · show Int.tdiv (v * 2 ^ (10 : Nat)) 2000 ≤ 52223
      have h1024 : v * 2 ^ (10 : Nat) = v * 1024 := by norm_num
      rw [h1024]
      rcases le_or_lt 0 v with hv | hv
      · rw [Int.tdiv_eq_ediv hv (by norm_num)] at h
        rw [Int.tdiv_eq_ediv (by positivity) (by norm_num)]
        omega
      · have hneg : Int.tdiv (-(v * 1024)) 2000 = - Int.tdiv (v * 1024) 2000 :=
          Int.neg_tdiv _ _
        have hpos : 0 ≤ Int.tdiv (-(v * 1024)) 2000 :=
          Int.tdiv_nonneg (by omega) (by norm_num)
        omega
    · show (50 : Int) * 2 ^ (10 : Nat) ≤ 52223
      norm_num
  · intro s a
    rfl

/-- C7 counterexample: two inputs above the documented maximum of 2000000
counts/sec/sec are stored as two different rescaled values (524 and 536),
both above the 512 that the documented maximum produces, so setMaxAccel
clamps to no implementation-defined ceiling. -/
theorem C7_counterexample :
    (setMaxAccel ctorState 2000000).AccLimitQx = 512 ∧
    (setMaxAccel ctorState 2050000).AccLimitQx = 524 ∧
    (setMaxAccel ctorState 2097151).AccLimitQx = 536 := by
  decide

/-- C7 witness: the velocity saturation bound applied at the documented
maximum input on the constructor state. -/
theorem C7_limitScaling_witness :
    (setMaxVel ctorState 100000).VelLimitQx ≤ 52223 :=
  C7_limitScaling.1 ctorState 100000 (by decide)

/-- C8 (amended): a calcSteps call on an enabled idle motor (no pending
command, phase 3) returns 0 and leaves absolutePosition unchanged, but it
does not merely advance the tick counter: it clears positionQ, velocityQ,
the step accumulator and the counters _TX, _TX1, _TX2, _TX3 to zero, so the
call is a true no-op only when those fields were already clear. -/
theorem C8_idleTick (s : Motor) (hE : s.Enabled = true) (hc : s.CommandX = 0)
    (hst : s.moveStateX = 3) :
    (calcSteps s).2 = 0 ∧ (calcSteps s).1.AbsPosition = s.AbsPosition ∧
    (calcSteps s).1.MovePosnQx = 0 ∧ (calcSteps s).1.VelRefQx = 0 ∧
    (calcSteps s).1.StepsSent = 0 ∧ (calcSteps s).1._TX = 0 ∧
    (calcSteps s).1._TX1 = 0 ∧ (calcSteps s).1._TX2 = 0 ∧
    (calcSteps s).1._TX3 = 0 ∧ (calcSteps s).1.CommandX = 0 := by
  rw [calcSteps_enabled s hE]
  have hcz : (tickT s).CommandX = 0 := hc
  have hidle : case3 (tickT s) =
      { tickT s with MovePosnQx := 0, VelRefQx := 0, StepsSent := 0,
                     _TX := 0, _TX1 := 0, _TX2 := 0, _TX3 := 0, _BurstX := 0 } := by
    simp only [case3]
    rw [if_pos hcz]
  rw [show midState s = case3 (tickT s) from phaseStep_eq3 _ hst, hidle]
  have hz : u32 (((0 : Nat) : Int) - ((0 : Nat) : Int)) /
      2 ^ s.fractionalBits % 256 = 0 := by
    unfold u32
    norm_num
  refine ⟨?_, ?_, rfl, rfl, ?_, rfl, rfl, rfl, rfl, hc⟩
  · show ((u32 (((0 : Nat) : Int) - ((0 : Nat) : Int)) /
        2 ^ s.fractionalBits % 256 : Nat) : Int) = 0
    rw [hz]
    rfl
  · show (if s._direction then
        s.AbsPosition + ((u32 (((0 : Nat) : Int) - ((0 : Nat) : Int)) /
          2 ^ s.fractionalBits % 256 : Nat) : Int)
      else s.AbsPosition - ((u32 (((0 : Nat) : Int) - ((0 : Nat) : Int)) /
          2 ^ s.fractionalBits % 256 : Nat) : Int)) = s.AbsPosition
    rw [hz]
    split_ifs <;> ring
  · show u32 (((0 : Nat) : Int) + ((u32 (((0 : Nat) : Int) - ((0 : Nat) : Int)) /
        2 ^ s.fractionalBits % 256 : Nat) : Int) * 2 ^ s.fractionalBits) = 0
    rw [hz]
    unfold u32
    norm_num

/-- C8 counterexample: an enabled idle state reached right after a completed
move still holds the old position integral and a nonzero tick count; the idle
tick zeroes positionQ (so it is not left unchanged) and resets _TX to 0
rather than advancing it. -/
theorem C8_counterexample :
    ¬ ((calcSteps c8stale).1.MovePosnQx = c8stale.MovePosnQx ∧
       (calcSteps c8stale).1._TX = c8stale._TX + 1) := by
  decide

/-- C8 witness: the amended idle-tick behavior on the stale idle state. -/
theorem C8_idleTick_witness :
    (calcSteps c8stale).2 = 0 ∧
    (calcSteps c8stale).1.AbsPosition = c8stale.AbsPosition ∧
    (calcSteps c8stale).1.MovePosnQx = 0 ∧
    (calcSteps c8stale).1.VelRefQx = 0 ∧
    (calcSteps c8stale).1.StepsSent = 0 ∧
    (calcSteps c8stale).1._TX = 0 ∧
    (calcSteps c8stale).1._TX1 = 0 ∧
    (calcSteps c8stale).1._TX2 = 0 ∧
    (calcSteps c8stale).1._TX3 = 0 ∧
    (calcSteps c8stale).1.CommandX = 0 :=
  C8_idleTick c8stale (by decide) (by decide) (by decide)

/-- C9: the value returned by calcSteps always lies in [0, 255], because it
is computed into the 8-bit unsigned member _BurstX; and on an enabled tick
whose position integral sits at or above the step accumulator (within the
32-bit range), the returned burst is the true whole-step residual reduced
modulo 256, and absolutePosition moves by exactly that reduced burst, signed
by the direction flag. -/
theorem C9_burstTruncation (s : Motor) :
    (0 ≤ (calcSteps s).2 ∧ (calcSteps s).2 ≤ 255) ∧
    (s.Enabled = true →
      (midState s).StepsSent ≤ (midState s).MovePosnQx →
      (midState s).MovePosnQx < 4294967296 →
      (calcSteps s).2 =
        ((((midState s).MovePosnQx - (midState s).StepsSent) /
          2 ^ (midState s).fractionalBits % 256 : Nat) : Int) ∧
      (calcSteps s).1.AbsPosition =
        (if s._direction then s.AbsPosition + (calcSteps s).2
         else s.AbsPosition - (calcSteps s).2)) := by
  constructor
  · unfold calcSteps
    split_ifs
    · norm_num
    · constructor
      · show (0 : Int) ≤
          ((u32 (((midState s).MovePosnQx : Int) - ((midState s).StepsSent : Int)) /
            2 ^ (midState s).fractionalBits % 256 : Nat) : Int)
        positivity
      · show ((u32 (((midState s).MovePosnQx : Int) - ((midState s).StepsSent : Int)) /
            2 ^ (midState s).fractionalBits % 256 : Nat) : Int) ≤ 255
        have hm : u32 (((midState s).MovePosnQx : Int) - ((midState s).StepsSent : Int)) /
            2 ^ (midState s).fractionalBits % 256 < 256 := Nat.mod_lt _ (by norm_num)
        omega
  · intro hE hle hlt
    rw [calcSteps_enabled s hE]
    have hu : u32 (((midState s).MovePosnQx : Int) - ((midState s).StepsSent : Int)) =
        (midState s).MovePosnQx - (midState s).StepsSent := by
      unfold u32
      omega
    constructor
    · show ((u32 (((midState s).MovePosnQx : Int) - ((midState s).StepsSent : Int)) /
          2 ^ (midState s).fractionalBits % 256 : Nat) : Int) = _
      rw [hu]
    · have hdir : (midState s)._direction = s._direction := by
        unfold midState
        rw [(phaseStep_frame (tickT s)).2.2.1]
        rfl
      have habs : (midState s).AbsPosition = s.AbsPosition := by
        unfold midState
        rw [(phaseStep_frame (tickT s)).2.2.2]
        rfl
      show (if (midState s)._direction then (midState s).AbsPosition + _
           else (midState s).AbsPosition - _) = _
      rw [hdir, habs]
      rfl

/-- C9 witness: the truncation formula applied to the one-tick jump of a
moveFast command of 256 counts, where the true residual of 256 whole steps is
reduced to a burst of 0. -/
theorem C9_burstTruncation_witness :
    (calcSteps (moveFast (enable ctorState) 256).1).2 =
      ((((midState (moveFast (enable ctorState) 256).1).MovePosnQx -
        (midState (moveFast (enable ctorState) 256).1).StepsSent) /
        2 ^ (midState (moveFast (enable ctorState) 256).1).fractionalBits %
          256 : Nat) : Int) ∧
    (calcSteps (moveFast (enable ctorState) 256).1).1.AbsPosition =
      (if (moveFast (enable ctorState) 256).1._direction then
        (moveFast (enable ctorState) 256).1.AbsPosition +
          (calcSteps (moveFast (enable ctorState) 256).1).2
       else (moveFast (enable ctorState) 256).1.AbsPosition -
          (calcSteps (moveFast (enable ctorState) 256).1).2) :=
  (C9_burstTruncation (moveFast (enable ctorState) 256).1).2
    (by decide) (by decide) (by decide)

/-- C10: move and moveFast write the direction flag only when a direction pin
is attached; with PinA = 0 an accepted command of either sign leaves the flag
at its previous value, calcSteps never changes the flag, and every burst is
added to absolutePosition when the flag is true and subtracted when it is
false, so the accumulation sign follows the stale flag rather than the sign
of the new command. -/
theorem C10_directionStale :
    (∀ (s : Motor) (dist : Int), s.CommandX = 0 → s.PinA = 0 →
      (move s dist).2 = true ∧ (move s dist).1._direction = s._direction ∧
      (moveFast s dist).2 = true ∧ (moveFast s dist).1._direction = s._direction) ∧
    (∀ s : Motor, (calcSteps s).1._direction = s._direction ∧
      (calcSteps s).1.AbsPosition =
        (if s._direction then s.AbsPosition + (calcSteps s).2
         else s.AbsPosition - (calcSteps s).2)) := by
  constructor
  · intro s dist h0 hPin
    have hPin2 : ¬ s.PinA ≠ 0 := by omega
    unfold move moveFast
    rw [if_pos h0, if_pos h0]
    split_ifs <;> exact ⟨rfl, rfl, rfl, rfl⟩
  · intro s
    by_cases hE : s.Enabled = true
    · rw [calcSteps_enabled s hE]
      have hdir : (midState s)._direction = s._direction := by
        unfold midState
        rw [(phaseStep_frame (tickT s)).2.2.1]
        rfl
      have habs : (midState s).AbsPosition = s.AbsPosition := by
        unfold midState
        rw [(phaseStep_frame (tickT s)).2.2.2]
        rfl
      refine ⟨by rw [emitBurst_direction, hdir], ?_⟩
      show (if (midState s)._direction then (midState s).AbsPosition + _
           else (midState s).AbsPosition - _) = _
      rw [hdir, habs]
      rfl
    · unfold calcSteps
      rw [tickT_Enabled, if_pos (by simpa using hE)]
      refine ⟨rfl, ?_⟩
      show (tickT s).AbsPosition = _
      split_ifs <;> · show s.AbsPosition = _; ring

/-- C10 witness: with no direction pin attached (PinA = 0 on the constructor
state), a negative command is accepted and leaves the direction flag at its
stale value false. -/
theorem C10_directionStale_witness :
    (move ctorState (-3)).2 = true ∧
    (move ctorState (-3)).1._direction = ctorState._direction ∧
    (moveFast ctorState (-3)).2 = true ∧
    (moveFast ctorState (-3)).1._direction = ctorState._direction :=
  C10_directionStale.1 ctorState (-3) (by decide) (by decide)

/-- C1 counterexample: moveFast 256 from the enabled cleared state is
accepted, completes within a single calcSteps call, and the sum of all bursts
emitted until commandDone is 0, not 256: the 256-step jump is truncated
modulo 256 by the 8-bit burst register. -/
theorem C1_counterexample :
    (moveFast (enable ctorState) 256).2 = true ∧
    commandDone (ticks (moveFast (enable ctorState) 256).1 1) = true ∧
    burstSum (moveFast (enable ctorState) 256).1 1 = 0 := by
  decide

/-- C1 witness: a one-tick immediate move of magnitude 1 under the
acceleration limit 536; every hypothesis of the amended claim holds by
computation and the bursts sum to exactly 1. -/
theorem C1_burstSum_eq_command_witness :
    burstSum (move (enable (setMaxAccel ctorState 2097151)) 1).1 1 = ((1 : Nat) : Int) :=
  C1_burstSum_eq_command 1 1 (move (enable (setMaxAccel ctorState 2097151)) 1).1
    (by decide) (by decide) (by decide) (by decide) (by decide) (by decide) (by decide)
    (by intro k hk
        have hk0 : k = 0 := by omega
        subst hk0
        decide)
    (by decide)
    (by intro k hk
        have hk0 : k = 0 := by omega
        subst hk0
        decide)

/-- C5: the one-tick lag exists only for the first move after construction.
On the first move the half-move threshold is first met on tick 3 (tick 2 is
still below it), the phase stays 1 on that tick, and the transition to phase
2 happens on tick 4.  The move completes by tick 5 and the idle tick 6 runs
the idle reset, but no code path ever clears _flag; on the identical second
move the flag is still set while the position is below the threshold, and the
transition to phase 2 fires on tick 3, the first tick on which the threshold
is met, without the one-tick lag the claim asserts for every move. -/
theorem C5_flagNeverReset :
    ((ticks c5first 2).MovePosnQx < u32 (ticks c5first 2).TriangleMovePeakQx ∧
      (ticks c5first 2)._flag = false) ∧
    ((ticks c5first 3).MovePosnQx ≥ u32 (ticks c5first 3).TriangleMovePeakQx ∧
      (ticks c5first 3).moveStateX = 1 ∧ (ticks c5first 3)._flag = true) ∧
    (ticks c5first 4).moveStateX = 2 ∧
    commandDone (ticks c5first 5) = true ∧
    ((ticks c5second 2).MovePosnQx < u32 (ticks c5second 2).TriangleMovePeakQx ∧
      (ticks c5second 2).moveStateX = 1 ∧ (ticks c5second 2)._flag = true) ∧
    (ticks c5second 3).MovePosnQx ≥ u32 (ticks c5second 3).TriangleMovePeakQx ∧
    (ticks c5second 3).moveStateX = 2 := by
  decide

end ClearPath
